import Mathlib

/-!
Verification development for `ark-serman` (`src/main.go`), an Ark Dedicated
Server manager over systemd.  The supervision-bus (D-Bus) connection, the
rcon connection and the HTTP layer are external collaborators; they are
modelled as oracle environments (records of response functions), and the
program logic — `getUnitStates`, `round`, the rpc handlers, the rcon loop and
the `main` argument dispatch — is translated function by function from
`src/main.go`.  Go `float64` arithmetic is modelled by exact rational
arithmetic (`ℚ`); Go strings are modelled by Lean `String`, with Go's
byte-level indexing modelled on characters (they coincide on ASCII unit
names).  Go functions that can panic (slice out of range, failed dynamic-type
assertion) return a `GoResult` with an explicit `panic` constructor.
-/

namespace ArkSerman

/-- Outcome of running a Go function that returns `(T, error)` and can also
panic at runtime: `ok` is a non-nil result with nil error, `error` is a nil
result with the given error, `panic` is a runtime panic with a message. -/
inductive GoResult (α : Type) where
  | ok : α → GoResult α
  | error : String → GoResult α
  | panic : String → GoResult α
deriving DecidableEq, Repr

/-- A dynamically-typed D-Bus property value (`interface{}` in Go).  The code
only ever asserts `.(uint64)`, so the model distinguishes `uint64` payloads
(carried as `Nat`; the dynamic-type assertion does not inspect the numeric
range) from every other dynamic type, tagged by a type name. -/
inductive DBusValue where
  | uint64 : Nat → DBusValue
  | other : String → DBusValue
deriving DecidableEq, Repr

/-- Model of `dbus.UnitFile`: only the `Path` field is consumed. -/
structure UnitFile where
  Path : String
deriving DecidableEq, Repr

/-- Model of `dbus.UnitStatus`: of its fields only `Name` and `ActiveState`
are consumed by this program. -/
structure UnitStatus where
  Name : String
  ActiveState : String
deriving DecidableEq, Repr

/-- Model of the Go `unitStatus` struct of `src/main.go`.  The embedded
`dbus.UnitStatus` is the field `status`; `Props` is `none` when the Go map is
nil (never assigned); `CPU`/`Memory` are `float64` fields modelled over `ℚ`,
zero-valued unless assigned. -/
structure unitStatus where
  status : UnitStatus
  Props : Option (List (String × DBusValue))
  Running : Bool
  DisplayName : String
  CPU : ℚ
  Memory : ℚ
deriving DecidableEq, Repr

/-- Go `math.Round`: round to the nearest integer, half away from zero
(round the absolute value half up, then restore the sign). -/
def roundHalfAwayZero (q : ℚ) : ℤ :=
  if 0 ≤ q then (q + 1/2).floor else -((-q + 1/2).floor)

/-- `func round(val float64, precision int) float64` of `src/main.go`:
`math.Round(val*(math.Pow10(precision))) / math.Pow10(precision)`, with the
`float64` arithmetic modelled exactly over `ℚ`. -/
def round (val : ℚ) (precision : Nat) : ℚ :=
  (roundHalfAwayZero (val * 10 ^ precision) : ℚ) / 10 ^ precision

/-- Go `path.Base`: the last element of a slash-separated path, after
removing trailing slashes; `"."` for the empty string and `"/"` for a string
of only slashes. -/
def pathBase (p : String) : String :=
  if p = "" then "."
  else
    let rcs := p.toList.reverse.dropWhile (fun c => c = '/')
    let last := rcs.takeWhile (fun c => c ≠ '/')
    if last = [] then "/" else String.mk last.reverse

/-- Go string slicing `s[lo:hi]` (indices are `int`): in-range slices yield
the substring, anything else panics at runtime, hence `none`. -/
def goSlice (s : String) (lo hi : Int) : Option String :=
  if 0 ≤ lo ∧ lo ≤ hi ∧ hi ≤ (s.toList.length : Int) then
    some (String.mk ((s.toList.drop lo.toNat).take (hi - lo).toNat))
  else
    none

/-- The loop of `getUnitStates` that collects `path.Base(v.Path)` of every
enumerated unit file, skipping the manager's own `ark-serman.service`. -/
def collectUnitNames : List UnitFile → List String
  | [] => []
  | v :: rest =>
    let b := pathBase v.Path
    if b = "ark-serman.service" then collectUnitNames rest
    else b :: collectUnitNames rest

/-- `s.ActiveState == "active" || s.ActiveState == "activating" ||
s.ActiveState == "deactivating"` of `src/main.go`. -/
def isRunning (activeState : String) : Bool :=
  activeState = "active" || activeState = "activating" || activeState = "deactivating"

/-- Lexicographic strict comparison of character lists, the order Go uses
for `string < string` (bytewise; identical to characterwise on ASCII). -/
def goCharsLt : List Char → List Char → Bool
  | [], [] => false
  | [], _ :: _ => true
  | _ :: _, [] => false
  | a :: as, b :: bs => if a < b then true else if b < a then false else goCharsLt as bs

/-- Go `a < b` on strings, on the character lists. -/
def goStrLt (a b : String) : Bool := goCharsLt a.toList b.toList

/-- Insertion used by `sortByName`: places a status before the first element
whose name is not smaller (smaller = the comparator `Name < Name` passed to
`sort.Slice`). -/
def insertByName (u : UnitStatus) : List UnitStatus → List UnitStatus
  | [] => [u]
  | v :: rest =>
    if goStrLt v.Name u.Name then v :: insertByName u rest else u :: v :: rest

/-- Model of `sort.Slice(unitStates, ... Name < Name)`: a sort by unit name.
`sort.Slice` is an unspecified comparison sort; any model of it returns a
permutation of the input ordered by name, and differs observably only in the
relative order of statuses sharing the same name. -/
def sortByName : List UnitStatus → List UnitStatus
  | [] => []
  | u :: rest => insertByName u (sortByName rest)

/-- Oracle model of an established supervision-bus connection
(`dbus.Conn`): each method maps its arguments to the reply the daemon would
give, `Except.error` being a returned D-Bus error. -/
structure Conn where
  listUnitFilesByPatterns : List String → Except String (List UnitFile)
  listUnitsByNames : List String → Except String (List UnitStatus)
  getAllProperties : String → Except String (List (String × DBusValue))

/-- Oracle model of the D-Bus environment:
`dbus.NewUserConnectionContext` either yields a connection or fails. -/
structure DbusEnv where
  newUserConnection : Except String Conn

/-- Go map indexing `p[k]` on the property map: the first binding for `k`
(D-Bus property maps have unique keys), `none` when absent (in Go, the zero
value: a nil `interface{}`). -/
def lookupProp (p : List (String × DBusValue)) (k : String) : Option DBusValue :=
  match p.lookup k with
  | some v => some v
  | none => none

/-- The CPU metric of `src/main.go`:
`round(float64(c)*0.000000001, 1)` (over `ℚ`, multiplying by `0.000000001`
is dividing by `1e9`). -/
def cpuMetric (c : Nat) : ℚ := round ((c : ℚ) * (1 / 1000000000)) 1

/-- The memory metric of `src/main.go`:
`round(float64(m)*0.000001, 1)`. -/
def memMetric (m : Nat) : ℚ := round ((m : ℚ) * (1 / 1000000)) 1

/-- The body of the `for i, s := range unitStates` loop of `getUnitStates`
for one status `s`: derive the display name (`s.Name[4 : len(s.Name)-8]`,
which panics when out of range), classify `Running`, and for a running unit
fetch the property map and read the two counters through unchecked `uint64`
type assertions (which panic when the key is absent or of another dynamic
type). -/
def stepUnit (conn : Conn) (s : UnitStatus) : GoResult unitStatus :=
  match goSlice s.Name 4 ((s.Name.toList.length : Int) - 8) with
  | none => .panic "runtime error: slice bounds out of range"
  | some dn =>
    if isRunning s.ActiveState then
      match conn.getAllProperties s.Name with
      | .error e => .error e
      | .ok p =>
        match lookupProp p "CPUUsageNSec" with
        | some (.uint64 c) =>
          match lookupProp p "MemoryCurrent" with
          | some (.uint64 m) =>
            .ok { status := s, Props := some p, Running := true, DisplayName := dn,
                  CPU := cpuMetric c, Memory := memMetric m }
          | _ => .panic "interface conversion: interface \x7b\x7d is not uint64"
        | _ => .panic "interface conversion: interface \x7b\x7d is not uint64"
    else
      .ok { status := s, Props := none, Running := false, DisplayName := dn,
            CPU := 0, Memory := 0 }

/-- The whole per-unit loop of `getUnitStates`: processes the sorted statuses
in order, aborting with the underlying error (and no records) as soon as a
property fetch fails, and propagating panics. -/
def processUnits (conn : Conn) : List UnitStatus → GoResult (List unitStatus)
  | [] => .ok []
  | s :: rest =>
    match stepUnit conn s with
    | .ok u =>
      match processUnits conn rest with
      | .ok us => .ok (u :: us)
      | .error e => .error e
      | .panic m => .panic m
    | .error e => .error e
    | .panic m => .panic m

/-- `func getUnitStates(ctx context.Context) ([]unitStatus, error)` of
`src/main.go`: connect to the user bus, enumerate unit files matching
`ark-*`, drop the manager's own `ark-serman.service`, query the batched unit
status for those names, sort by name ascending, and build one record per
status (fetching properties for running units).  Every failure aborts the
whole call with the underlying error; the deferred `conn.Close()` has no
observable effect on the result. -/
def getUnitStates (env : DbusEnv) : GoResult (List unitStatus) :=
  match env.newUserConnection with
  | .error e => .error e
  | .ok conn =>
    match conn.listUnitFilesByPatterns ["ark-*"] with
    | .error e => .error e
    | .ok unitFiles =>
      let unitNames := collectUnitNames unitFiles
      match conn.listUnitsByNames unitNames with
      | .error e => .error e
      | .ok unitStates => processUnits conn (sortByName unitStates)

/-- An HTTP response as produced by the rpc handlers: status code, optional
`Content-Type` header, optional `Location` header, and body. -/
structure HttpResponse where
  code : Nat
  contentType : Option String
  location : Option String
  body : String
deriving DecidableEq, Repr

/-- `func replyError(w http.ResponseWriter, s string)` of `src/main.go`:
a 500 response with a `text/plain` content type and the message as body. -/
def replyError (s : String) : HttpResponse :=
  { code := 500, contentType := some "text/plain", location := none, body := s }

/-- `http.Redirect(w, r, "/", http.StatusFound)` as issued by the handlers:
a 302 response with a `Location` header (no body is written for a POST). -/
def redirectResponse (url : String) : HttpResponse :=
  { code := 302, contentType := none, location := some url, body := "" }

/-- Oracle model of the connection methods used by the rpc handlers:
`StartUnitContext`/`StopUnitContext` take the unit name and the conflict mode
and reply with a job id or a D-Bus error. -/
structure JobConn where
  startUnit : String → String → Except String Nat
  stopUnit : String → String → Except String Nat

/-- Oracle model of the D-Bus environment seen by the rpc handlers. -/
structure JobEnv where
  newUserConnection : Except String JobConn

/-- `func rpcStart(w http.ResponseWriter, r *http.Request)` of `src/main.go`:
take the final path segment of the request URL as the unit name, connect,
start the unit with `"replace"` conflict semantics, and answer 302 to `/` on
success or 500 with the error text on any failure. -/
def rpcStart (env : JobEnv) (urlPath : String) : HttpResponse :=
  let unitName := pathBase urlPath
  match env.newUserConnection with
  | .error e => replyError e
  | .ok conn =>
    match conn.startUnit unitName "replace" with
    | .error e => replyError e
    | .ok _ => redirectResponse "/"

/-- `func rpcStop(w http.ResponseWriter, r *http.Request)` of `src/main.go`:
as `rpcStart` but stopping the unit. -/
def rpcStop (env : JobEnv) (urlPath : String) : HttpResponse :=
  let unitName := pathBase urlPath
  match env.newUserConnection with
  | .error e => replyError e
  | .ok conn =>
    match conn.stopUnit unitName "replace" with
    | .error e => replyError e
    | .ok _ => redirectResponse "/"

/-- Oracle model of an established rcon connection: `Execute` maps a command
string to its textual response or an error. -/
structure RconConn where
  execute : String → Except String String

/-- Oracle model of the rcon environment: `rcon.Dial` on a host and password
either yields a connection or fails. -/
structure RconEnv where
  dial : String → String → Except String RconConn

/-- Observable outcome of `runRcon`: the commands actually submitted to the
connection in submission order, the stdout lines printed, and the
`log.Fatal` error that terminated the process, if any. -/
structure RconOutcome where
  executed : List String
  output : List String
  fatalError : Option String
deriving DecidableEq, Repr

/-- The `for _, a := range cmds` loop of `runRcon` in `src/main.go`: print
the command, execute it, and on error terminate at once via `log.Fatal`
(never reaching the remaining commands); on success print the response and
continue. -/
def rconLoop (conn : RconConn) : List String → RconOutcome
  | [] => { executed := [], output := [], fatalError := none }
  | a :: rest =>
    match conn.execute a with
    | .error e =>
      { executed := [a], output := ["Running: " ++ a], fatalError := some e }
    | .ok resp =>
      let r := rconLoop conn rest
      { executed := a :: r.executed,
        output := ("Running: " ++ a) :: ("  Got: " ++ resp) :: r.output,
        fatalError := r.fatalError }

/-- `func runRcon(ctx context.Context, host, pwd string, cmds []string)` of
`src/main.go`: dial once (terminating via `log.Fatal` on failure) and run
the commands in order over that single connection. -/
def runRcon (env : RconEnv) (host pwd : String) (cmds : List String) : RconOutcome :=
  match env.dial host pwd with
  | .error e => { executed := [], output := [], fatalError := some e }
  | .ok conn => rconLoop conn cmds

/-- What `main` of `src/main.go` decides to do after flag parsing, before
any I/O: exit with code 1 and a diagnostic printed by `println`, run the
rcon client (`runRcon`, which performs network I/O), or run the web server
(`runServer`, which performs network I/O). -/
inductive MainAction where
  | exitWith : Nat → String → MainAction
  | runRconAction : String → String → List String → MainAction
  | runServerAction : String → Bool → MainAction
deriving DecidableEq, Repr

/-- The argument-contract dispatch of `func main()` in `src/main.go`:
`bind` is the `-p` flag, `pwd` the `-pwd` flag (default `""`, so an absent
flag is the empty string), `quiet` the `-q` flag and `args` the positional
arguments (`flag.Args()`). -/
def mainDispatch (bind pwd : String) (quiet : Bool) (args : List String) : MainAction :=
  if args.length ≠ 0 then
    if pwd = "" then .exitWith 1 "-pwd is required"
    else .runRconAction bind pwd args
  else if pwd ≠ "" then .exitWith 1 "-pwd is unexpected"
  else .runServerAction bind quiet

/-- Modelled from the spec sentence of claim C5: `displayName` is obtained
from the unit name by "removing exactly the first 4 characters and the last
8 characters of the name". -/
def stripFirst4Last8 (s : String) : String :=
  let cs := s.toList.drop 4
  String.mk (cs.take (cs.length - 8))

end ArkSerman

namespace ArkSerman

/-! ### Helper lemmas about the rounding arithmetic -/

theorem roundHalfAwayZero_neg (x : ℚ) :
    roundHalfAwayZero (-x) = -roundHalfAwayZero x := by
  unfold roundHalfAwayZero
  by_cases hx : 0 ≤ x
  · by_cases hnx : 0 ≤ -x
    · have hx0 : x = 0 := le_antisymm (by linarith) hx
      subst hx0
      rw [if_pos hnx, if_pos hx, show -(0:ℚ) = 0 by norm_num]
      have h0 : ((0:ℚ) + 1/2).floor = 0 := by
        show ⌊((0:ℚ) + 1/2)⌋ = 0
        exact Int.floor_eq_iff.mpr (by norm_num)
      rw [h0]
      rfl
    · rw [if_neg hnx, if_pos hx, neg_neg]
  · have hnx : 0 ≤ -x := by linarith [lt_of_not_le hx]
    rw [if_pos hnx, if_neg hx, neg_neg]

theorem round_nonneg_floor (q : ℚ) (hq : 0 ≤ q) :
    round q 1 = (((q * 10 + 1/2).floor : ℤ) : ℚ) / 10 := by
  unfold round roundHalfAwayZero
  rw [pow_one]
  rw [if_pos (mul_nonneg hq (by norm_num))]

theorem round_neg_eq (q : ℚ) (p : Nat) : round (-q) p = -(round q p) := by
  unfold round
  rw [neg_mul, roundHalfAwayZero_neg]
  push_cast
  ring

theorem cpuMetric_div (c : Nat) : cpuMetric c = round ((c : ℚ) / 1000000000) 1 := by
  unfold cpuMetric
  rw [mul_one_div]

theorem memMetric_div (m : Nat) : memMetric m = round ((m : ℚ) / 1000000) 1 := by
  unfold memMetric
  rw [mul_one_div]

theorem cpuMetric_sample : cpuMetric 1234500000 = 1.2 := by
  unfold cpuMetric round roundHalfAwayZero
  rw [if_pos (by norm_num)]
  have h : (((1234500000 : ℕ) : ℚ) * (1 / 1000000000) * 10 ^ (1 : Nat) + 1/2).floor = 12 := by
    show ⌊(((1234500000 : ℕ) : ℚ) * (1 / 1000000000) * 10 ^ (1 : Nat) + 1/2)⌋ = 12
    exact Int.floor_eq_iff.mpr (by norm_num)
  rw [h]
  norm_num

theorem memMetric_sample : memMetric 523456789 = 523.5 := by
  unfold memMetric round roundHalfAwayZero
  rw [if_pos (by norm_num)]
  have h : (((523456789 : ℕ) : ℚ) * (1 / 1000000) * 10 ^ (1 : Nat) + 1/2).floor = 5235 := by
    show ⌊(((523456789 : ℕ) : ℚ) * (1 / 1000000) * 10 ^ (1 : Nat) + 1/2)⌋ = 5235
    exact Int.floor_eq_iff.mpr (by norm_num)
  rw [h]
  norm_num

theorem cpuMetric_zero : cpuMetric 0 = 0 := by
  unfold cpuMetric round roundHalfAwayZero
  rw [if_pos (by norm_num)]
  have h : (((0 : ℕ) : ℚ) * (1 / 1000000000) * 10 ^ (1 : Nat) + 1/2).floor = 0 := by
    show ⌊(((0 : ℕ) : ℚ) * (1 / 1000000000) * 10 ^ (1 : Nat) + 1/2)⌋ = 0
    exact Int.floor_eq_iff.mpr (by norm_num)
  rw [h]
  norm_num

theorem memMetric_zero : memMetric 0 = 0 := by
  unfold memMetric round roundHalfAwayZero
  rw [if_pos (by norm_num)]
  have h : (((0 : ℕ) : ℚ) * (1 / 1000000) * 10 ^ (1 : Nat) + 1/2).floor = 0 := by
    show ⌊(((0 : ℕ) : ℚ) * (1 / 1000000) * 10 ^ (1 : Nat) + 1/2)⌋ = 0
    exact Int.floor_eq_iff.mpr (by norm_num)
  rw [h]
  norm_num

/-! ### Helper lemmas about the sort by unit name -/

theorem goCharsLt_iff_lt (as bs : List Char) : goCharsLt as bs = true ↔ as < bs := by
  induction as generalizing bs with
  | nil =>
    cases bs with
    | nil =>
      constructor
      · intro h; exact absurd h (by simp [goCharsLt])
      · intro h; cases h
    | cons b bs =>
      constructor
      · intro _; exact List.Lex.nil
      · intro _; rfl
  | cons a as ih =>
    cases bs with
    | nil =>
      constructor
      · intro h; exact absurd h (by simp [goCharsLt])
      · intro h; cases h
    | cons b bs =>
      by_cases hab : a < b
      · constructor
        · intro _; exact List.Lex.rel hab
        · intro _; simp [goCharsLt, hab]
      · by_cases hba : b < a
        · constructor
          · intro h; simp [goCharsLt, hab, hba] at h
          · intro h
            cases h with
            | cons h2 => exact absurd hba (lt_irrefl a)
            | rel h2 => exact absurd h2 hab
        · have heq : a = b := le_antisymm (not_lt.mp hba) (not_lt.mp hab)
          subst heq
          constructor
          · intro h
            have h2 : goCharsLt as bs = true := by
              simpa [goCharsLt, hab, hba] using h
            exact List.Lex.cons ((ih bs).mp h2)
          · intro h
            cases h with
            | cons h2 =>
              have h3 : goCharsLt as bs = true := (ih bs).mpr h2
              simp [goCharsLt, hab, hba, h3]
            | rel h2 => exact absurd h2 hab

theorem goStrLt_iff_lt (a b : String) : goStrLt a b = true ↔ a < b := by
  rw [goStrLt, goCharsLt_iff_lt, String.lt_iff_toList_lt]

theorem goStrLt_false_iff_le (a b : String) : goStrLt b a = false ↔ a ≤ b := by
  rw [Bool.eq_false_iff, Ne, goStrLt_iff_lt]
  exact not_lt

theorem insertByName_perm (u : UnitStatus) (l : List UnitStatus) :
    (insertByName u l).Perm (u :: l) := by
  induction l with
  | nil => simp [insertByName]
  | cons v rest ih =>
    by_cases h : goStrLt v.Name u.Name
    · simp only [insertByName, if_pos h]
      exact ((ih.cons v).trans (List.Perm.swap u v rest))
    · simp only [insertByName, if_neg h]
      exact List.Perm.refl _

theorem sortByName_perm (l : List UnitStatus) : (sortByName l).Perm l := by
  induction l with
  | nil => simp [sortByName]
  | cons u rest ih =>
    exact (insertByName_perm u (sortByName rest)).trans (ih.cons u)

theorem insertByName_pairwise (u : UnitStatus) (l : List UnitStatus)
    (h : List.Pairwise (fun a b : UnitStatus => a.Name ≤ b.Name) l) :
    List.Pairwise (fun a b : UnitStatus => a.Name ≤ b.Name) (insertByName u l) := by
  induction l with
  | nil => simp [insertByName]
  | cons v rest ih =>
    rcases List.pairwise_cons.mp h with ⟨hv, hrest⟩
    by_cases hlt : goStrLt v.Name u.Name
    · have hvu : v.Name ≤ u.Name := le_of_lt ((goStrLt_iff_lt _ _).mp hlt)
      simp only [insertByName, if_pos hlt]
      refine List.pairwise_cons.mpr ⟨?_, ih hrest⟩
      intro b hb
      have hb2 : b ∈ u :: rest := ((insertByName_perm u rest).mem_iff).mp hb
      rcases List.mem_cons.mp hb2 with hb2 | hb2
      · rw [hb2]; exact hvu
      · exact hv b hb2
    · have huv : u.Name ≤ v.Name :=
        (goStrLt_false_iff_le u.Name v.Name).mp (Bool.eq_false_iff.mpr hlt)
      simp only [insertByName, if_neg hlt]
      refine List.pairwise_cons.mpr ⟨?_, h⟩
      intro b hb
      rcases List.mem_cons.mp hb with hb | hb
      · rw [hb]; exact huv
      · exact le_trans huv (hv b hb)

theorem sortByName_pairwise (l : List UnitStatus) :
    List.Pairwise (fun a b : UnitStatus => a.Name ≤ b.Name) (sortByName l) := by
  induction l with
  | nil => simp [sortByName]
  | cons u rest ih => exact insertByName_pairwise u (sortByName rest) ih

/-! ### Helper lemmas about `collectUnitNames` -/

theorem collectUnitNames_eq_filter (fs : List UnitFile) :
    collectUnitNames fs
      = (fs.map (fun v => pathBase v.Path)).filter (fun b => b ≠ "ark-serman.service") := by
  induction fs with
  | nil => simp [collectUnitNames]
  | cons v rest ih =>
    by_cases h : pathBase v.Path = "ark-serman.service"
    · simp [collectUnitNames, h, ih]
    · simp [collectUnitNames, h, ih]

theorem mem_collectUnitNames {fs : List UnitFile} {n : String}
    (hmem : n ∈ fs.map (fun v => pathBase v.Path)) (hne : n ≠ "ark-serman.service") :
    n ∈ collectUnitNames fs := by
  rw [collectUnitNames_eq_filter]
  exact List.mem_filter.mpr ⟨hmem, by simpa using hne⟩

theorem manager_not_mem_collectUnitNames (fs : List UnitFile) :
    "ark-serman.service" ∉ collectUnitNames fs := by
  rw [collectUnitNames_eq_filter]
  intro h
  have := (List.mem_filter.mp h).2
  simp at this

/-! ### Helper lemmas about the per-unit loop -/

theorem stepUnit_ok_inv {conn : Conn} {s : UnitStatus} {u : unitStatus}
    (h : stepUnit conn s = .ok u) :
    u.status = s
    ∧ goSlice s.Name 4 ((s.Name.toList.length : Int) - 8) = some u.DisplayName
    ∧ u.Running = isRunning s.ActiveState
    ∧ (isRunning s.ActiveState = false → u.Props = none ∧ u.CPU = 0 ∧ u.Memory = 0)
    ∧ (isRunning s.ActiveState = true → ∃ p c m,
        conn.getAllProperties s.Name = .ok p ∧ u.Props = some p
        ∧ lookupProp p "CPUUsageNSec" = some (.uint64 c)
        ∧ lookupProp p "MemoryCurrent" = some (.uint64 m)
        ∧ u.CPU = cpuMetric c ∧ u.Memory = memMetric m) := by
  unfold stepUnit at h
  cases hslice : goSlice s.Name 4 ((s.Name.toList.length : Int) - 8) with
  | none => simp only [hslice] at h; cases h
  | some dn =>
    simp only [hslice] at h
    by_cases hrun : isRunning s.ActiveState
    · rw [if_pos hrun] at h
      cases hprops : conn.getAllProperties s.Name with
      | error e => simp only [hprops] at h; cases h
      | ok p =>
        simp only [hprops] at h
        cases hcpu : lookupProp p "CPUUsageNSec" with
        | none => simp only [hcpu] at h; cases h
        | some vc =>
          cases vc with
          | other t => simp only [hcpu] at h; cases h
          | uint64 c =>
            simp only [hcpu] at h
            cases hmem : lookupProp p "MemoryCurrent" with
            | none => simp only [hmem] at h; cases h
            | some vm =>
              cases vm with
              | other t => simp only [hmem] at h; cases h
              | uint64 m =>
                simp only [hmem] at h
                cases h
                refine ⟨rfl, rfl, by simp [hrun], by simp [hrun], ?_⟩
                intro _
                exact ⟨p, c, m, rfl, rfl, hcpu, hmem, rfl, rfl⟩
    · rw [if_neg hrun] at h
      cases h
      have hrun' : isRunning s.ActiveState = false := by
        simpa using hrun
      exact ⟨rfl, rfl, by simp [hrun'], fun _ => ⟨rfl, rfl, rfl⟩, by simp [hrun']⟩

theorem processUnits_ok_statuses {conn : Conn} {l : List UnitStatus}
    {r : List unitStatus} (h : processUnits conn l = .ok r) :
    r.map (fun u => u.status) = l := by
  induction l generalizing r with
  | nil =>
    unfold processUnits at h
    cases h
    rfl
  | cons s rest ih =>
    unfold processUnits at h
    cases hstep : stepUnit conn s with
    | ok u =>
      simp only [hstep] at h
      cases hrest : processUnits conn rest with
      | ok us =>
        simp only [hrest] at h
        cases h
        simp [(stepUnit_ok_inv hstep).1, ih hrest]
      | error e => simp only [hrest] at h; cases h
      | panic m => simp only [hrest] at h; cases h
    | error e => simp only [hstep] at h; cases h
    | panic m => simp only [hstep] at h; cases h

theorem processUnits_ok_mem {conn : Conn} {l : List UnitStatus}
    {r : List unitStatus} (h : processUnits conn l = .ok r) :
    ∀ u ∈ r, stepUnit conn u.status = .ok u := by
  induction l generalizing r with
  | nil =>
    unfold processUnits at h
    cases h
    intro u hu
    cases hu
  | cons s rest ih =>
    unfold processUnits at h
    cases hstep : stepUnit conn s with
    | ok u0 =>
      simp only [hstep] at h
      cases hrest : processUnits conn rest with
      | ok us =>
        simp only [hrest] at h
        cases h
        intro u hu
        rcases List.mem_cons.mp hu with hu | hu
        · rw [hu, (stepUnit_ok_inv hstep).1]; exact hstep
        · exact ih hrest u hu
      | error e => simp only [hrest] at h; cases h
      | panic m => simp only [hrest] at h; cases h
    | error e => simp only [hstep] at h; cases h
    | panic m => simp only [hstep] at h; cases h

theorem processUnits_ok_all {conn : Conn} {l : List UnitStatus}
    {r : List unitStatus} (h : processUnits conn l = .ok r) :
    ∀ s ∈ l, ∃ u, stepUnit conn s = .ok u := by
  induction l generalizing r with
  | nil =>
    intro s hs
    cases hs
  | cons s0 rest ih =>
    unfold processUnits at h
    cases hstep : stepUnit conn s0 with
    | ok u0 =>
      simp only [hstep] at h
      cases hrest : processUnits conn rest with
      | ok us =>
        intro s hs
        rcases List.mem_cons.mp hs with hs | hs
        · exact ⟨u0, by rw [hs]; exact hstep⟩
        · exact ih hrest s hs
      | error e => simp only [hrest] at h; cases h
      | panic m => simp only [hrest] at h; cases h
    | error e => simp only [hstep] at h; cases h
    | panic m => simp only [hstep] at h; cases h

theorem processUnits_append_error {conn : Conn} {l₁ : List UnitStatus}
    {pre : List unitStatus} (h : processUnits conn l₁ = .ok pre)
    {s : UnitStatus} {l₂ : List UnitStatus} {e : String}
    (hs : stepUnit conn s = .error e) :
    processUnits conn (l₁ ++ s :: l₂) = .error e := by
  induction l₁ generalizing pre with
  | nil =>
    simp only [List.nil_append, processUnits, hs]
  | cons t rest ih =>
    unfold processUnits at h
    cases hstep : stepUnit conn t with
    | ok u =>
      simp only [hstep] at h
      cases hrest : processUnits conn rest with
      | ok us =>
        rw [List.cons_append]
        unfold processUnits
        rw [hstep, ih hrest]
      | error e2 => simp only [hrest] at h; cases h
      | panic m2 => simp only [hrest] at h; cases h
    | error e2 => simp only [hstep] at h; cases h
    | panic m2 => simp only [hstep] at h; cases h

theorem processUnits_append_panic {conn : Conn} {l₁ : List UnitStatus}
    {pre : List unitStatus} (h : processUnits conn l₁ = .ok pre)
    {s : UnitStatus} {l₂ : List UnitStatus} {m : String}
    (hs : stepUnit conn s = .panic m) :
    processUnits conn (l₁ ++ s :: l₂) = .panic m := by
  induction l₁ generalizing pre with
  | nil =>
    simp only [List.nil_append, processUnits, hs]
  | cons t rest ih =>
    unfold processUnits at h
    cases hstep : stepUnit conn t with
    | ok u =>
      simp only [hstep] at h
      cases hrest : processUnits conn rest with
      | ok us =>
        rw [List.cons_append]
        unfold processUnits
        rw [hstep, ih hrest]
      | error e2 => simp only [hrest] at h; cases h
      | panic m2 => simp only [hrest] at h; cases h
    | error e2 => simp only [hstep] at h; cases h
    | panic m2 => simp only [hstep] at h; cases h

theorem getUnitStates_run {env : DbusEnv} {conn : Conn} {fs : List UnitFile}
    {sts : List UnitStatus}
    (h1 : env.newUserConnection = .ok conn)
    (h2 : conn.listUnitFilesByPatterns ["ark-*"] = .ok fs)
    (h3 : conn.listUnitsByNames (collectUnitNames fs) = .ok sts) :
    getUnitStates env = processUnits conn (sortByName sts) := by
  simp only [getUnitStates, h1, h2, h3]

theorem getUnitStates_ok_inv {env : DbusEnv} {out : List unitStatus}
    (hok : getUnitStates env = .ok out) :
    ∃ conn fs sts, env.newUserConnection = .ok conn
      ∧ conn.listUnitFilesByPatterns ["ark-*"] = .ok fs
      ∧ conn.listUnitsByNames (collectUnitNames fs) = .ok sts
      ∧ processUnits conn (sortByName sts) = .ok out := by
  unfold getUnitStates at hok
  cases hc : env.newUserConnection with
  | error e => simp only [hc] at hok; cases hok
  | ok conn =>
    simp only [hc] at hok
    cases hf : conn.listUnitFilesByPatterns ["ark-*"] with
    | error e => simp only [hf] at hok; cases hok
    | ok fs =>
      simp only [hf] at hok
      cases hs : conn.listUnitsByNames (collectUnitNames fs) with
      | error e => simp only [hs] at hok; cases hok
      | ok sts =>
        simp only [hs] at hok
        exact ⟨conn, fs, sts, rfl, hf, hs, hok⟩

/-! ### Helper lemmas about the display-name slice -/

theorem goSlice_displayName {s dn : String}
    (h : goSlice s 4 ((s.toList.length : Int) - 8) = some dn) :
    12 ≤ s.toList.length ∧ dn = stripFirst4Last8 s := by
  unfold goSlice at h
  by_cases hc : (0 : Int) ≤ 4 ∧ (4 : Int) ≤ (s.toList.length : Int) - 8
      ∧ (s.toList.length : Int) - 8 ≤ (s.toList.length : Int)
  · rw [if_pos hc] at h
    have hlen : 12 ≤ s.toList.length := by omega
    have harg : ((s.toList.length : Int) - 8 - 4).toNat = (s.toList.drop 4).length - 8 := by
      rw [List.length_drop]
      omega
    injection h with h
    refine ⟨hlen, ?_⟩
    rw [← h, harg]
    rfl
  · rw [if_neg hc] at h
    cases h

theorem goSlice_short {s : String} (h : s.toList.length < 12) :
    goSlice s 4 ((s.toList.length : Int) - 8) = none := by
  unfold goSlice
  rw [if_neg]
  intro hc
  omega

/-! ### Claim C1 -/

/-- C1: for every list of unit-file names returned by the prefix
enumeration, the record sequence returned by `getUnitStates` contains
exactly one `UnitRecord` per matching base name except the manager's own
`ark-serman.service`, and the sequence is sorted ascending lexicographically
by unit name.  The batched call is an external oracle, so its contract —
one reported status per requested name — is a hypothesis (`horacle`), as is
distinctness of the requested base names (`hnodup`). -/
theorem getUnitStates_complete_and_sorted
    (env : DbusEnv) (conn : Conn) (fs : List UnitFile) (sts : List UnitStatus)
    (out : List unitStatus)
    (hconn : env.newUserConnection = .ok conn)
    (hfiles : conn.listUnitFilesByPatterns ["ark-*"] = .ok fs)
    (hstatus : conn.listUnitsByNames (collectUnitNames fs) = .ok sts)
    (horacle : (sts.map UnitStatus.Name).Perm (collectUnitNames fs))
    (hnodup : (collectUnitNames fs).Nodup)
    (hok : getUnitStates env = .ok out) :
    (∀ n, n ∈ fs.map (fun v => pathBase v.Path) → n ≠ "ark-serman.service" →
        (out.map (fun u => u.status.Name)).count n = 1)
    ∧ "ark-serman.service" ∉ out.map (fun u => u.status.Name)
    ∧ List.Pairwise (fun a b : unitStatus => a.status.Name ≤ b.status.Name) out := by
  rw [getUnitStates_run hconn hfiles hstatus] at hok
  have hstat : out.map (fun u => u.status) = sortByName sts :=
    processUnits_ok_statuses hok
  have hnames : out.map (fun u => u.status.Name)
      = (sortByName sts).map UnitStatus.Name := by
    rw [← hstat, List.map_map]
    rfl
  have hperm : (out.map (fun u => u.status.Name)).Perm (collectUnitNames fs) := by
    rw [hnames]
    exact (List.Perm.map UnitStatus.Name (sortByName_perm sts)).trans horacle
  refine ⟨?_, ?_, ?_⟩
  · intro n hmem hne
    rw [hperm.count_eq]
    exact List.count_eq_one_of_mem hnodup (mem_collectUnitNames hmem hne)
  · intro hmem
    exact manager_not_mem_collectUnitNames fs (hperm.mem_iff.mp hmem)
  · have hpw := sortByName_pairwise sts
    rw [← hstat] at hpw
    exact (@List.pairwise_map unitStatus UnitStatus (fun u => u.status)
      (fun a b => a.Name ≤ b.Name) out).mp hpw

/-- Concrete environment for the C1 witness: three `ark-*` unit files
(one of them the manager itself), statuses reported one per requested
name, all inactive. -/
def connC1 : Conn :=
  { listUnitFilesByPatterns := fun _ =>
      .ok [⟨"/etc/systemd/user/ark-beta.service"⟩,
           ⟨"/etc/systemd/user/ark-serman.service"⟩,
           ⟨"/etc/systemd/user/ark-alpha.service"⟩],
    listUnitsByNames := fun ns =>
      .ok (ns.map (fun n => { Name := n, ActiveState := "inactive" })),
    getAllProperties := fun _ => .error "unused" }

def envC1 : DbusEnv := ⟨.ok connC1⟩

def outC1 : List unitStatus :=
  [{ status := ⟨"ark-alpha.service", "inactive"⟩, Props := none, Running := false,
     DisplayName := "alpha", CPU := 0, Memory := 0 },
   { status := ⟨"ark-beta.service", "inactive"⟩, Props := none, Running := false,
     DisplayName := "beta", CPU := 0, Memory := 0 }]

/-- Witness for C1 at `envC1`. -/
theorem getUnitStates_complete_and_sorted_witness :
    getUnitStates envC1 = .ok outC1
    ∧ (outC1.map (fun u => u.status.Name)).count "ark-alpha.service" = 1
    ∧ "ark-serman.service" ∉ outC1.map (fun u => u.status.Name)
    ∧ List.Pairwise (fun a b : unitStatus => a.status.Name ≤ b.status.Name) outC1 := by
  have hok : getUnitStates envC1 = .ok outC1 := by decide
  have hmain := getUnitStates_complete_and_sorted envC1 connC1
    [⟨"/etc/systemd/user/ark-beta.service"⟩,
     ⟨"/etc/systemd/user/ark-serman.service"⟩,
     ⟨"/etc/systemd/user/ark-alpha.service"⟩]
    [⟨"ark-beta.service", "inactive"⟩, ⟨"ark-alpha.service", "inactive"⟩]
    outC1 rfl rfl rfl (by decide) (by decide) hok
  exact ⟨hok, hmain.1 "ark-alpha.service" (by decide) (by decide),
    hmain.2.1, hmain.2.2⟩

/-! ### Claim C5 -/

/-- C5: for every unit name in the record set, `displayName` is obtained by
removing exactly the first 4 characters and the last 8 characters of the
name; in particular the `displayName` of unit `ark-island.service` is
`island`.  (`stripFirst4Last8` spells out the spec's removal rule; the code
realises it as the slice `Name[4 : len(Name)-8]`.) -/
theorem displayName_strips_prefix_suffix :
    (∀ (env : DbusEnv) (out : List unitStatus), getUnitStates env = .ok out →
      ∀ u ∈ out, u.DisplayName = stripFirst4Last8 u.status.Name)
    ∧ stripFirst4Last8 "ark-island.service" = "island" := by
  constructor
  · intro env out hok u hu
    obtain ⟨conn, fs, sts, hc, hf, hs, hp⟩ := getUnitStates_ok_inv hok
    have hstep := processUnits_ok_mem hp u hu
    exact (goSlice_displayName (stepUnit_ok_inv hstep).2.1).2
  · decide

def connC5 : Conn :=
  { listUnitFilesByPatterns := fun _ => .ok [⟨"/etc/systemd/user/ark-island.service"⟩],
    listUnitsByNames := fun ns =>
      .ok (ns.map (fun n => { Name := n, ActiveState := "inactive" })),
    getAllProperties := fun _ => .error "unused" }

def envC5 : DbusEnv := ⟨.ok connC5⟩

def outC5 : List unitStatus :=
  [{ status := ⟨"ark-island.service", "inactive"⟩, Props := none, Running := false,
     DisplayName := "island", CPU := 0, Memory := 0 }]

/-- Witness for C5 at `envC5`. -/
theorem displayName_strips_prefix_suffix_witness :
    getUnitStates envC5 = .ok outC5
    ∧ ({ status := ⟨"ark-island.service", "inactive"⟩, Props := none, Running := false,
         DisplayName := "island", CPU := 0, Memory := 0 } : unitStatus).DisplayName
        = stripFirst4Last8 "ark-island.service"
    ∧ stripFirst4Last8 "ark-island.service" = "island" := by
  have hok : getUnitStates envC5 = .ok outC5 := by decide
  exact ⟨hok,
    displayName_strips_prefix_suffix.1 envC5 outC5 hok _ (by decide),
    displayName_strips_prefix_suffix.2⟩

/-! ### Claim C9 -/

/-- C9: the display-name slice `Name[4:len(Name)-8]` panics for any unit
name shorter than 12 characters, aborting `getUnitStates` with a panic when
such a status is reached; conversely a successful `getUnitStates` run
guarantees every status returned by the batched call had a name of length at
least 12 (the totality precondition). -/
theorem short_unit_name_panics :
    (∀ (env : DbusEnv) (conn : Conn) (fs : List UnitFile) (sts : List UnitStatus)
        (l₁ : List UnitStatus) (s : UnitStatus) (l₂ : List UnitStatus)
        (pre : List unitStatus),
        env.newUserConnection = .ok conn →
        conn.listUnitFilesByPatterns ["ark-*"] = .ok fs →
        conn.listUnitsByNames (collectUnitNames fs) = .ok sts →
        sortByName sts = l₁ ++ s :: l₂ →
        processUnits conn l₁ = .ok pre →
        s.Name.toList.length < 12 →
        getUnitStates env = .panic "runtime error: slice bounds out of range")
    ∧ (∀ (env : DbusEnv) (conn : Conn) (fs : List UnitFile) (sts : List UnitStatus)
        (out : List unitStatus),
        env.newUserConnection = .ok conn →
        conn.listUnitFilesByPatterns ["ark-*"] = .ok fs →
        conn.listUnitsByNames (collectUnitNames fs) = .ok sts →
        getUnitStates env = .ok out →
        ∀ s ∈ sts, 12 ≤ s.Name.toList.length) := by
  constructor
  · intro env conn fs sts l₁ s l₂ pre h1 h2 h3 hsort hpre hshort
    rw [getUnitStates_run h1 h2 h3, hsort]
    have hstep : stepUnit conn s = .panic "runtime error: slice bounds out of range" := by
      unfold stepUnit
      rw [goSlice_short hshort]
    exact processUnits_append_panic hpre hstep
  · intro env conn fs sts out h1 h2 h3 hok s hs
    rw [getUnitStates_run h1 h2 h3] at hok
    have hs2 : s ∈ sortByName sts := (sortByName_perm sts).mem_iff.mpr hs
    obtain ⟨u, hu⟩ := processUnits_ok_all hok s hs2
    exact (goSlice_displayName (stepUnit_ok_inv hu).2.1).1

def connC9 : Conn :=
  { listUnitFilesByPatterns := fun _ => .ok [⟨"/etc/systemd/user/ark-a.svc"⟩],
    listUnitsByNames := fun ns =>
      .ok (ns.map (fun n => { Name := n, ActiveState := "inactive" })),
    getAllProperties := fun _ => .error "unused" }

def envC9 : DbusEnv := ⟨.ok connC9⟩

/-- Witness for C9 at `envC9`: the 9-character unit name `ark-a.svc`
makes the whole call panic. -/
theorem short_unit_name_panics_witness :
    ("ark-a.svc" : String).toList.length < 12
    ∧ getUnitStates envC9 = .panic "runtime error: slice bounds out of range" := by
  refine ⟨by decide, ?_⟩
  exact short_unit_name_panics.1 envC9 connC9 [⟨"/etc/systemd/user/ark-a.svc"⟩]
    [⟨"ark-a.svc", "inactive"⟩] [] ⟨"ark-a.svc", "inactive"⟩ [] []
    rfl rfl rfl rfl rfl (by decide)

/-! ### Claim C10 -/

/-- C10: for a running unit, the two unchecked `uint64` type assertions on
the fetched property map panic when `CPUUsageNSec` is absent or not a
`uint64`, or when it is a `uint64` but `MemoryCurrent` is absent or not a
`uint64`; the panic aborts the whole `getUnitStates` call.  Conversely, a
successful run guarantees every running record's property map held `uint64`
values under both keys. -/
theorem missing_uint64_property_panics :
    (∀ (env : DbusEnv) (conn : Conn) (fs : List UnitFile) (sts : List UnitStatus)
        (l₁ : List UnitStatus) (s : UnitStatus) (l₂ : List UnitStatus)
        (pre : List unitStatus) (p : List (String × DBusValue)) (dn : String),
        env.newUserConnection = .ok conn →
        conn.listUnitFilesByPatterns ["ark-*"] = .ok fs →
        conn.listUnitsByNames (collectUnitNames fs) = .ok sts →
        sortByName sts = l₁ ++ s :: l₂ →
        processUnits conn l₁ = .ok pre →
        goSlice s.Name 4 ((s.Name.toList.length : Int) - 8) = some dn →
        isRunning s.ActiveState = true →
        conn.getAllProperties s.Name = .ok p →
        ((∀ c, lookupProp p "CPUUsageNSec" ≠ some (.uint64 c))
          ∨ (∃ c, lookupProp p "CPUUsageNSec" = some (.uint64 c)
              ∧ ∀ m, lookupProp p "MemoryCurrent" ≠ some (.uint64 m))) →
        getUnitStates env = .panic "interface conversion: interface \x7b\x7d is not uint64")
    ∧ (∀ (env : DbusEnv) (out : List unitStatus),
        getUnitStates env = .ok out →
        ∀ u ∈ out, u.Running = true →
        ∃ p c m, u.Props = some p
          ∧ lookupProp p "CPUUsageNSec" = some (.uint64 c)
          ∧ lookupProp p "MemoryCurrent" = some (.uint64 m)) := by
  constructor
  · intro env conn fs sts l₁ s l₂ pre p dn h1 h2 h3 hsort hpre hslice hrun hprops hbad
    rw [getUnitStates_run h1 h2 h3, hsort]
    have hstep : stepUnit conn s
        = .panic "interface conversion: interface \x7b\x7d is not uint64" := by
      unfold stepUnit
      simp only [hslice]
      rw [if_pos hrun]
      simp only [hprops]
      rcases hbad with hbad | ⟨c, hcpu, hbad⟩
      · cases hcpu : lookupProp p "CPUUsageNSec" with
        | none => rfl
        | some vc =>
          cases vc with
          | uint64 c => exact absurd hcpu (hbad c)
          | other t => rfl
      · simp only [hcpu]
    exact processUnits_append_panic hpre hstep
  · intro env out hok u hu hrun
    obtain ⟨conn, fs, sts, hc, hf, hs, hp⟩ := getUnitStates_ok_inv hok
    have hstep := processUnits_ok_mem hp u hu
    have hinv := stepUnit_ok_inv hstep
    have hr : isRunning u.status.ActiveState = true := by
      rw [← hinv.2.2.1]; exact hrun
    obtain ⟨p, c, m, _, hprops, hcpu, hmem, _, _⟩ := hinv.2.2.2.2 hr
    exact ⟨p, c, m, hprops, hcpu, hmem⟩

def connC10 : Conn :=
  { listUnitFilesByPatterns := fun _ => .ok [⟨"/etc/systemd/user/ark-island.service"⟩],
    listUnitsByNames := fun ns =>
      .ok (ns.map (fun n => { Name := n, ActiveState := "active" })),
    getAllProperties := fun _ => .ok [("MemoryCurrent", .uint64 5)] }

def envC10 : DbusEnv := ⟨.ok connC10⟩

/-- Witness for C10 at `envC10`: a running unit whose property map lacks
`CPUUsageNSec` makes the whole call panic. -/
theorem missing_uint64_property_panics_witness :
    lookupProp [("MemoryCurrent", DBusValue.uint64 5)] "CPUUsageNSec" = none
    ∧ getUnitStates envC10
        = .panic "interface conversion: interface \x7b\x7d is not uint64" := by
  have hnone : lookupProp [("MemoryCurrent", DBusValue.uint64 5)] "CPUUsageNSec" = none := by
    decide
  refine ⟨hnone, ?_⟩
  exact missing_uint64_property_panics.1 envC10 connC10
    [⟨"/etc/systemd/user/ark-island.service"⟩]
    [⟨"ark-island.service", "active"⟩] [] ⟨"ark-island.service", "active"⟩ [] []
    [("MemoryCurrent", .uint64 5)] "island"
    rfl rfl rfl rfl rfl (by decide) rfl rfl
    (Or.inl (fun c h => by rw [hnone] at h; cases h))

/-! ### Claim C4 -/

/-- The ways a `getUnitStates` run can fail with error `e`: connection
establishment fails, the unit-file enumeration fails, the batched status
query fails, or — with every earlier step and every earlier unit having
succeeded — the property fetch of a running unit fails. -/
def failsWith (env : DbusEnv) (e : String) : Prop :=
  env.newUserConnection = .error e
  ∨ (∃ conn, env.newUserConnection = .ok conn
      ∧ conn.listUnitFilesByPatterns ["ark-*"] = .error e)
  ∨ (∃ conn fs, env.newUserConnection = .ok conn
      ∧ conn.listUnitFilesByPatterns ["ark-*"] = .ok fs
      ∧ conn.listUnitsByNames (collectUnitNames fs) = .error e)
  ∨ (∃ conn fs sts l₁ s l₂ pre dn, env.newUserConnection = .ok conn
      ∧ conn.listUnitFilesByPatterns ["ark-*"] = .ok fs
      ∧ conn.listUnitsByNames (collectUnitNames fs) = .ok sts
      ∧ sortByName sts = l₁ ++ s :: l₂
      ∧ processUnits conn l₁ = .ok pre
      ∧ goSlice s.Name 4 ((s.Name.toList.length : Int) - 8) = some dn
      ∧ isRunning s.ActiveState = true
      ∧ conn.getAllProperties s.Name = .error e)

/-- C4: if any step of `getUnitStates` fails — connection establishment,
unit-file enumeration, the batched status query, or any single per-unit
property fetch — the whole call returns the underlying error with no record
list (the `error` result carries no records), never a partial list. -/
theorem getUnitStates_propagates_errors (env : DbusEnv) (e : String)
    (h : failsWith env e) : getUnitStates env = .error e := by
  rcases h with h | ⟨conn, h1, h2⟩ | ⟨conn, fs, h1, h2, h3⟩
    | ⟨conn, fs, sts, l₁, s, l₂, pre, dn, h1, h2, h3, hsort, hpre, hslice, hrun, hprops⟩
  · unfold getUnitStates
    rw [h]
  · simp only [getUnitStates, h1, h2]
  · simp only [getUnitStates, h1, h2, h3]
  · rw [getUnitStates_run h1 h2 h3, hsort]
    have hstep : stepUnit conn s = .error e := by
      unfold stepUnit
      simp only [hslice]
      rw [if_pos hrun]
      simp only [hprops]
    exact processUnits_append_error hpre hstep

def envC4 : DbusEnv := ⟨.error "dbus connection refused"⟩

/-- Witness for C4 at `envC4`: a failed connection propagates verbatim. -/
theorem getUnitStates_propagates_errors_witness :
    failsWith envC4 "dbus connection refused"
    ∧ getUnitStates envC4 = .error "dbus connection refused" :=
  ⟨Or.inl rfl, getUnitStates_propagates_errors envC4 "dbus connection refused" (Or.inl rfl)⟩

/-! ### Claim C2 -/

def propsC2 : List (String × DBusValue) :=
  [("CPUUsageNSec", .uint64 0), ("MemoryCurrent", .uint64 0)]

def connC2 : Conn :=
  { listUnitFilesByPatterns := fun _ => .ok [⟨"/etc/systemd/user/ark-island.service"⟩],
    listUnitsByNames := fun ns =>
      .ok (ns.map (fun n => { Name := n, ActiveState := "active" })),
    getAllProperties := fun _ => .ok propsC2 }

def envC2 : DbusEnv := ⟨.ok connC2⟩

def recC2 : unitStatus :=
  { status := ⟨"ark-island.service", "active"⟩, Props := some propsC2, Running := true,
    DisplayName := "island", CPU := cpuMetric 0, Memory := memMetric 0 }

def outC2 : List unitStatus := [recC2]

/-- C2 counterexample: the claim "the CPU and Memory metric fields are
populated (non-default) if and only if Running is true" is false on the
code: a running unit whose raw counters are zero gets `CPU = 0` and
`Memory = 0`, indistinguishable from the zero defaults of a non-running
record. -/
theorem populated_iff_running_counterexample :
    ¬ (∀ (env : DbusEnv) (out : List unitStatus), getUnitStates env = .ok out →
        ∀ u ∈ out, (u.Running = true ↔ (u.CPU ≠ 0 ∧ u.Memory ≠ 0))) := by
  intro hclaim
  have hok : getUnitStates envC2 = .ok outC2 := by rfl
  have hu := hclaim envC2 outC2 hok recC2 (List.mem_singleton.mpr rfl)
  have hcm : recC2.CPU ≠ 0 ∧ recC2.Memory ≠ 0 := hu.mp rfl
  exact hcm.1 cpuMetric_zero

/-- C2 amended: for every record, `Running` is true iff the reported
`ActiveState` is one of active/activating/deactivating; the raw property
map `Props` is populated iff `Running`; when `Running` is false the CPU and
Memory fields hold the `float64` zero default; when `Running` is true they
hold the computed metrics — which may themselves equal the zero default
when the rounded counters are zero, so "non-default iff running" does not
hold. -/
theorem running_classification (env : DbusEnv) (out : List unitStatus)
    (hok : getUnitStates env = .ok out) :
    ∀ u ∈ out,
      (u.Running = true ↔ (u.status.ActiveState = "active"
        ∨ u.status.ActiveState = "activating"
        ∨ u.status.ActiveState = "deactivating"))
      ∧ (u.Running = false → u.Props = none ∧ u.CPU = 0 ∧ u.Memory = 0)
      ∧ (u.Running = true → ∃ p c m, u.Props = some p
          ∧ lookupProp p "CPUUsageNSec" = some (.uint64 c)
          ∧ lookupProp p "MemoryCurrent" = some (.uint64 m)
          ∧ u.CPU = cpuMetric c ∧ u.Memory = memMetric m) := by
  intro u hu
  obtain ⟨conn, fs, sts, hc, hf, hs, hp⟩ := getUnitStates_ok_inv hok
  have hinv := stepUnit_ok_inv (processUnits_ok_mem hp u hu)
  refine ⟨?_, ?_, ?_⟩
  · rw [hinv.2.2.1]
    simp [isRunning, or_assoc]
  · intro hfalse
    have hrf : isRunning u.status.ActiveState = false := by
      rw [← hinv.2.2.1]; exact hfalse
    exact hinv.2.2.2.1 hrf
  · intro htrue
    have hrt : isRunning u.status.ActiveState = true := by
      rw [← hinv.2.2.1]; exact htrue
    obtain ⟨p, c, m, _, h2, h3, h4, h5, h6⟩ := hinv.2.2.2.2 hrt
    exact ⟨p, c, m, h2, h3, h4, h5, h6⟩

/-- Witness for the amended C2 at `envC2`. -/
theorem running_classification_witness :
    getUnitStates envC2 = .ok outC2
    ∧ (recC2.Running = true ↔ (recC2.status.ActiveState = "active"
        ∨ recC2.status.ActiveState = "activating"
        ∨ recC2.status.ActiveState = "deactivating"))
    ∧ recC2.CPU = cpuMetric 0 ∧ recC2.Memory = memMetric 0 := by
  have hok : getUnitStates envC2 = .ok outC2 := by rfl
  exact ⟨hok,
    (running_classification envC2 outC2 hok recC2 (List.mem_singleton.mpr rfl)).1,
    rfl, rfl⟩

/-! ### Claim C3 -/

/-- C3: for every running unit the CPU metric is the raw nanosecond counter
divided by `1e9` and the memory metric the raw byte counter divided by
`1e6` (decimal mega), rounded to 1 decimal place; `round` at one decimal is
floor of `q*10 + 1/2` over 10 for nonnegative `q` and is symmetric under
negation (half away from zero); in particular `1_234_500_000` ns yields
`1.2` and `523_456_789` bytes yields `523.5`. -/
theorem running_metrics_formula :
    (∀ (env : DbusEnv) (out : List unitStatus), getUnitStates env = .ok out →
      ∀ u ∈ out, u.Running = true →
      ∃ p c m, u.Props = some p
        ∧ lookupProp p "CPUUsageNSec" = some (.uint64 c)
        ∧ lookupProp p "MemoryCurrent" = some (.uint64 m)
        ∧ u.CPU = round ((c : ℚ) / 1000000000) 1
        ∧ u.Memory = round ((m : ℚ) / 1000000) 1)
    ∧ (∀ q : ℚ, 0 ≤ q → round q 1 = (((q * 10 + 1/2).floor : ℤ) : ℚ) / 10)
    ∧ (∀ q : ℚ, round (-q) 1 = -(round q 1))
    ∧ cpuMetric 1234500000 = 1.2
    ∧ memMetric 523456789 = 523.5 := by
  refine ⟨?_, round_nonneg_floor, fun q => round_neg_eq q 1,
    cpuMetric_sample, memMetric_sample⟩
  intro env out hok u hu hrun
  obtain ⟨conn, fs, sts, hc, hf, hs, hp⟩ := getUnitStates_ok_inv hok
  have hinv := stepUnit_ok_inv (processUnits_ok_mem hp u hu)
  have hrt : isRunning u.status.ActiveState = true := by
    rw [← hinv.2.2.1]; exact hrun
  obtain ⟨p, c, m, _, h2, h3, h4, h5, h6⟩ := hinv.2.2.2.2 hrt
  exact ⟨p, c, m, h2, h3, h4, by rw [h5, cpuMetric_div], by rw [h6, memMetric_div]⟩

def propsC3 : List (String × DBusValue) :=
  [("CPUUsageNSec", .uint64 1234500000), ("MemoryCurrent", .uint64 523456789)]

def connC3 : Conn :=
  { listUnitFilesByPatterns := fun _ => .ok [⟨"/etc/systemd/user/ark-island.service"⟩],
    listUnitsByNames := fun ns =>
      .ok (ns.map (fun n => { Name := n, ActiveState := "active" })),
    getAllProperties := fun _ => .ok propsC3 }

def envC3 : DbusEnv := ⟨.ok connC3⟩

def recC3 : unitStatus :=
  { status := ⟨"ark-island.service", "active"⟩, Props := some propsC3, Running := true,
    DisplayName := "island", CPU := cpuMetric 1234500000,
    Memory := memMetric 523456789 }

def outC3 : List unitStatus := [recC3]

/-- Witness for C3 at `envC3`. -/
theorem running_metrics_formula_witness :
    getUnitStates envC3 = .ok outC3
    ∧ recC3.CPU = round ((1234500000 : ℚ) / 1000000000) 1
    ∧ recC3.Memory = round ((523456789 : ℚ) / 1000000) 1
    ∧ recC3.CPU = 1.2
    ∧ recC3.Memory = 523.5 := by
  have hok : getUnitStates envC3 = .ok outC3 := by rfl
  have h1 := running_metrics_formula.1 envC3 outC3 hok recC3
    (List.mem_singleton.mpr rfl) rfl
  obtain ⟨p, c, m, hp, hcl, hml, hcpu, hmem⟩ := h1
  have hp2 : propsC3 = p := by
    have : (some propsC3 : Option (List (String × DBusValue))) = some p := hp
    injection this
  subst hp2
  have hc : c = 1234500000 := by
    have : (some (DBusValue.uint64 1234500000) : Option DBusValue)
        = some (.uint64 c) := hcl
    injection this with h
    injection h with h
    exact h.symm
  have hm : m = 523456789 := by
    have : (some (DBusValue.uint64 523456789) : Option DBusValue)
        = some (.uint64 m) := hml
    injection this with h
    injection h with h
    exact h.symm
  subst hc
  subst hm
  exact ⟨hok, hcpu, hmem,
    running_metrics_formula.2.2.2.1, running_metrics_formula.2.2.2.2⟩

/-! ### Claim C6 -/

/-- C6: for every POST to `/rpc/start/{unitName}` or `/rpc/stop/{unitName}`,
the handler extracts the unit name as the final path segment (`path.Base`),
issues the start/stop request to the supervision bus with `"replace"`
conflict semantics, and answers HTTP 302 to `/` on success or HTTP 500 with
the error message as a `text/plain` body on failure (including connection
failure). -/
theorem rpc_handlers_contract (env : JobEnv) (p : String) :
    (∀ e, env.newUserConnection = .error e →
        rpcStart env p = replyError e ∧ rpcStop env p = replyError e)
    ∧ (∀ conn, env.newUserConnection = .ok conn →
        (∀ e, conn.startUnit (pathBase p) "replace" = .error e →
            rpcStart env p = replyError e)
        ∧ (∀ j, conn.startUnit (pathBase p) "replace" = .ok j →
            rpcStart env p = redirectResponse "/")
        ∧ (∀ e, conn.stopUnit (pathBase p) "replace" = .error e →
            rpcStop env p = replyError e)
        ∧ (∀ j, conn.stopUnit (pathBase p) "replace" = .ok j →
            rpcStop env p = redirectResponse "/"))
    ∧ redirectResponse "/"
        = { code := 302, contentType := none, location := some "/", body := "" }
    ∧ (∀ e, replyError e
        = { code := 500, contentType := some "text/plain", location := none, body := e }) := by
  refine ⟨?_, ?_, rfl, fun e => rfl⟩
  · intro e he
    constructor <;> simp only [rpcStart, rpcStop, he]
  · intro conn hc
    refine ⟨?_, ?_, ?_, ?_⟩ <;> intro x hx <;>
      simp only [rpcStart, rpcStop, hc, hx]

def connC6 : JobConn :=
  { startUnit := fun _ _ => .ok 1,
    stopUnit := fun _ _ => .error "boom" }

def envC6 : JobEnv := ⟨.ok connC6⟩

/-- Witness for C6 at `envC6`. -/
theorem rpc_handlers_contract_witness :
    rpcStart envC6 "/rpc/start/ark-island.service" = redirectResponse "/"
    ∧ rpcStop envC6 "/rpc/stop/ark-island.service" = replyError "boom" :=
  ⟨((rpc_handlers_contract envC6 "/rpc/start/ark-island.service").2.1 connC6 rfl).2.1 1 rfl,
   ((rpc_handlers_contract envC6 "/rpc/stop/ark-island.service").2.1 connC6 rfl).2.2.1 "boom" rfl⟩

/-! ### Claim C7 -/

theorem rconLoop_all_ok (conn : RconConn) (cmds : List String)
    (h : ∀ c ∈ cmds, ∃ r, conn.execute c = .ok r) :
    (rconLoop conn cmds).executed = cmds
    ∧ (rconLoop conn cmds).fatalError = none := by
  induction cmds with
  | nil => exact ⟨rfl, rfl⟩
  | cons a rest ih =>
    obtain ⟨r, hr⟩ := h a (by simp)
    have hrest := ih (fun c hc => h c (by simp [hc]))
    simp only [rconLoop, hr]
    exact ⟨by rw [hrest.1], hrest.2⟩

theorem rconLoop_failfast (conn : RconConn) (l₁ : List String) (c : String)
    (l₂ : List String) (e : String)
    (hok : ∀ c2 ∈ l₁, ∃ r, conn.execute c2 = .ok r)
    (he : conn.execute c = .error e) :
    (rconLoop conn (l₁ ++ c :: l₂)).executed = l₁ ++ [c]
    ∧ (rconLoop conn (l₁ ++ c :: l₂)).fatalError = some e := by
  induction l₁ with
  | nil =>
    rw [List.nil_append]
    unfold rconLoop
    rw [he]
    exact ⟨rfl, rfl⟩
  | cons a rest ih =>
    obtain ⟨r, hr⟩ := hok a (by simp)
    have hrest := ih (fun c2 hc2 => hok c2 (by simp [hc2]))
    rw [List.cons_append]
    unfold rconLoop
    rw [hr]
    constructor
    · show a :: (rconLoop conn (rest ++ c :: l₂)).executed = a :: (rest ++ [c])
      rw [hrest.1]
    · show (rconLoop conn (rest ++ c :: l₂)).fatalError = some e
      exact hrest.2

/-- C7: over one dialled connection, the administrative command client
executes the operator-supplied commands strictly in the given order: when
every command succeeds, the submission trace is exactly the command list
and the client terminates normally; when some command fails (all earlier
ones having succeeded), the trace stops at the failing command — later
commands are never attempted — and the process dies with that error. -/
theorem rcon_sequential_failfast (env : RconEnv) (host pwd : String)
    (cmds : List String) (conn : RconConn)
    (hdial : env.dial host pwd = .ok conn) :
    ((∀ c ∈ cmds, ∃ r, conn.execute c = .ok r) →
        (runRcon env host pwd cmds).executed = cmds
        ∧ (runRcon env host pwd cmds).fatalError = none)
    ∧ (∀ (l₁ : List String) (c : String) (l₂ : List String) (e : String),
        cmds = l₁ ++ c :: l₂ →
        (∀ c2 ∈ l₁, ∃ r, conn.execute c2 = .ok r) →
        conn.execute c = .error e →
        (runRcon env host pwd cmds).executed = l₁ ++ [c]
        ∧ (runRcon env host pwd cmds).fatalError = some e) := by
  have hrun : runRcon env host pwd cmds = rconLoop conn cmds := by
    simp only [runRcon, hdial]
  constructor
  · intro h
    rw [hrun]
    exact rconLoop_all_ok conn cmds h
  · intro l₁ c l₂ e hsplit hok he
    rw [hrun, hsplit]
    exact rconLoop_failfast conn l₁ c l₂ e hok he

def connC7 : RconConn :=
  ⟨fun c => if c = "ListPlayers" then .error "auth failed" else .ok "done"⟩

def envC7 : RconEnv := ⟨fun _ _ => .ok connC7⟩

/-- Witness for C7 at `envC7`: with commands `["ListPlayers", "SaveWorld"]`
and the first failing, only the first is ever submitted. -/
theorem rcon_sequential_failfast_witness :
    (runRcon envC7 "host:27020" "secret" ["ListPlayers", "SaveWorld"]).executed
        = ["ListPlayers"]
    ∧ (runRcon envC7 "host:27020" "secret" ["ListPlayers", "SaveWorld"]).fatalError
        = some "auth failed" := by
  have h := (rcon_sequential_failfast envC7 "host:27020" "secret"
      ["ListPlayers", "SaveWorld"] connC7 rfl).2
    [] "ListPlayers" ["SaveWorld"] "auth failed" rfl
    (fun c2 hc2 => absurd hc2 (List.not_mem_nil c2)) rfl
  exact ⟨h.1, h.2⟩

/-! ### Claim C8 -/

/-- C8: after flag parsing, when positional arguments are present and the
shared-secret flag is empty (absent), `main` exits with code 1 and a short
diagnostic before any I/O (the exit action, not the rcon or server action);
when no positional arguments are present and the shared-secret flag is
non-empty, it likewise exits with code 1 before any I/O. -/
theorem main_secret_flag_contract (bind pwd : String) (quiet : Bool)
    (args : List String) :
    (args ≠ [] → pwd = "" →
        mainDispatch bind pwd quiet args = .exitWith 1 "-pwd is required")
    ∧ (args = [] → pwd ≠ "" →
        mainDispatch bind pwd quiet args = .exitWith 1 "-pwd is unexpected") := by
  constructor
  · intro hargs hpwd
    unfold mainDispatch
    rw [if_pos (fun h => hargs (List.length_eq_zero.mp h)), if_pos hpwd]
  · intro hargs hpwd
    subst hargs
    unfold mainDispatch
    rw [if_neg (by simp), if_pos hpwd]

/-- Witness for C8: a missing `-pwd` with commands, and a stray `-pwd`
without commands. -/
theorem main_secret_flag_contract_witness :
    mainDispatch ":8070" "" true ["SaveWorld"] = .exitWith 1 "-pwd is required"
    ∧ mainDispatch ":8070" "hunter2" true [] = .exitWith 1 "-pwd is unexpected" :=
  ⟨(main_secret_flag_contract ":8070" "" true ["SaveWorld"]).1 (by decide) rfl,
   (main_secret_flag_contract ":8070" "hunter2" true []).2 rfl (by decide)⟩

end ArkSerman
